import Mathlib

/-!
A verification development for the teacher-training-chatbot repository.

The Lean definitions below are a shallow embedding of the Python sources:

* `KnowledgeStore` models `src/knowledge_store.py`: an SQLite database with a
  `documents` table and an `embeddings` table is modelled as two row lists.
  Row ids follow SQLite rowid assignment for `INTEGER PRIMARY KEY` columns:
  a newly inserted row receives one more than the largest rowid currently in
  the table (`1` for an empty table).  The `with sqlite3.connect(...)` block
  of each store method commits the implicit transaction on normal exit and
  rolls it back when an exception escapes the block.
* numpy float vectors are modelled as `List ℚ`; `np.dot` and
  `np.linalg.norm` become `dotQ` and `Real.sqrt` of the rational sum of
  squares.  Python's stable `list.sort(key=..., reverse=True)` becomes a
  stable descending insertion sort.
* `Chatbot.evaluate_response` models `TeacherTrainingChatbot.evaluate_response`
  from `src/chatbot.py`; the module-level `random` generator that
  `random.choice` consults is modelled as an explicit stream of draws
  (`List ℕ`) threaded through the evaluation.
* `KnowledgeManager.calculate_strategy_score` and
  `calculate_intervention_score` model the two scoring helpers of
  `src/knowledge_manager.py`; `faiss.pairwise_distances` on a pair of single
  vectors is the squared Euclidean distance.
* `KnowledgeProcessor.flatten_dict` and `KnowledgeManager.process_structured_data`
  model the two recursive flatteners for JSON/YAML values, over an explicit
  tagged value type `JVal` whose scalars are strings and integers.
-/

/-- Python metadata dictionaries, as ordered string-to-string mappings. -/
abbrev Metadata := List (String × String)

/-- `np.dot` on two vectors (sum of pairwise products over the common length). -/
def dotQ : List ℚ → List ℚ → ℚ
  | a :: as, b :: bs => a * b + dotQ as bs
  | _, _ => 0

/-- Sum of squares of a vector; `np.linalg.norm v` is its square root. -/
def sumSqQ (v : List ℚ) : ℚ := (v.map (fun x => x * x)).sum

/-- Euclidean norm of a vector, as a real number. -/
noncomputable def normR (v : List ℚ) : ℝ := Real.sqrt ((sumSqQ v : ℚ) : ℝ)

/-- The cosine-similarity expression computed inside `KnowledgeStore.search`:
`np.dot(q, d) / (np.linalg.norm(q) * np.linalg.norm(d))`.  The division is
unguarded in the source; a denominator of zero is the division error branch. -/
noncomputable def cosineSim (q d : List ℚ) : ℝ :=
  ((dotQ q d : ℚ) : ℝ) / (normR q * normR d)

/-- A row of the `documents` table. -/
structure DocumentRow where
  id : ℕ
  content : String
  source : String
  chunk_type : String
  metadata : Metadata
deriving DecidableEq

/-- A row of the `embeddings` table. -/
structure EmbeddingRow where
  id : ℕ
  document_id : ℕ
  embedding : List ℚ
deriving DecidableEq

/-- The persistent state of `KnowledgeStore`: the two SQLite tables. -/
structure KnowledgeStore where
  documents : List DocumentRow
  embeddings : List EmbeddingRow
deriving DecidableEq

namespace KnowledgeStore

/-- SQLite rowid assignment for an `INTEGER PRIMARY KEY` column without
`AUTOINCREMENT`: one more than the largest rowid currently in the table. -/
def nextRowId (ids : List ℕ) : ℕ := ids.foldr max 0 + 1

/-- The store right after `_init_db` on a fresh database: both tables empty. -/
def emptyStore : KnowledgeStore := ⟨[], []⟩

/-- The first `INSERT` of `add_document` (into `documents`), returning the
state with the new row and `cursor.lastrowid`. -/
def insertDocumentRow (st : KnowledgeStore) (content source chunk_type : String)
    (metadata : Metadata) : KnowledgeStore × ℕ :=
  let docId := nextRowId (st.documents.map DocumentRow.id)
  ({ st with documents :=
      st.documents ++ [⟨docId, content, source, chunk_type, metadata⟩] }, docId)

/-- The second `INSERT` of `add_document` (into `embeddings`). -/
def insertEmbeddingRow (st : KnowledgeStore) (docId : ℕ) (embedding : List ℚ) :
    KnowledgeStore :=
  let embId := nextRowId (st.embeddings.map EmbeddingRow.id)
  { st with embeddings := st.embeddings ++ [⟨embId, docId, embedding⟩] }

/-- `KnowledgeStore.add_document`: both inserts inside one transaction. -/
def add_document (st : KnowledgeStore) (content source chunk_type : String)
    (metadata : Metadata) (embedding : List ℚ) : KnowledgeStore :=
  let r := insertDocumentRow st content source chunk_type metadata
  insertEmbeddingRow r.1 r.2 embedding

/-- `add_document` with an injected failure of the embedding `INSERT`: the
exception escapes the `with sqlite3.connect(...)` block, which rolls the open
transaction (both pending inserts) back, so the database is unchanged. -/
def add_document_injected (failEmbedding : Bool) (st : KnowledgeStore)
    (content source chunk_type : String) (metadata : Metadata)
    (embedding : List ℚ) : KnowledgeStore :=
  if failEmbedding then st
  else add_document st content source chunk_type metadata embedding

/-- A row of the `documents JOIN embeddings` query used by
`get_all_documents` and `search`. -/
def joinRows (st : KnowledgeStore) : List (DocumentRow × EmbeddingRow) :=
  st.documents.flatMap fun d =>
    (st.embeddings.filter fun e => e.document_id == d.id).map fun e => (d, e)

/-- A dictionary returned by `get_all_documents`. -/
structure FullRow where
  id : ℕ
  content : String
  source : String
  chunk_type : String
  metadata : Metadata
  embedding : List ℚ
deriving DecidableEq

/-- `KnowledgeStore.get_all_documents`. -/
def get_all_documents (st : KnowledgeStore) : List FullRow :=
  (joinRows st).map fun p =>
    ⟨p.1.id, p.1.content, p.1.source, p.1.chunk_type, p.1.metadata, p.2.embedding⟩

/-- A dictionary returned by `get_documents_by_source`: note that the
`SELECT` projects only `id`, `content`, `chunk_type` and `metadata`. -/
structure SourceRow where
  id : ℕ
  content : String
  chunk_type : String
  metadata : Metadata
deriving DecidableEq

/-- `KnowledgeStore.get_documents_by_source`. -/
def get_documents_by_source (st : KnowledgeStore) (source : String) :
    List SourceRow :=
  (st.documents.filter fun d => d.source == source).map fun d =>
    ⟨d.id, d.content, d.chunk_type, d.metadata⟩

/-- A dictionary in the result list of `search`. -/
structure SearchRow where
  id : ℕ
  content : String
  source : String
  chunk_type : String
  metadata : Metadata
  similarity : ℝ

/-- `a` may be ranked at or before `b`: descending similarity order. -/
def rankLe (a b : SearchRow) : Prop := b.similarity ≤ a.similarity

open Classical in
/-- Insertion into a descending-sorted list, before the first element that
does not rank above the inserted one (the stable position). -/
noncomputable def orderedInsertDesc (a : SearchRow) :
    List SearchRow → List SearchRow
  | [] => [a]
  | b :: l => if rankLe a b then a :: b :: l else b :: orderedInsertDesc a l

/-- Python's `results.sort(key=lambda x: x['similarity'], reverse=True)` is a
stable descending sort; stable insertion sort computes the same list. -/
noncomputable def sortDesc : List SearchRow → List SearchRow
  | [] => []
  | b :: l => orderedInsertDesc b (sortDesc l)

/-- The `results` list built by the loop inside `search`: one scored entry
per row of the `documents JOIN embeddings` query. -/
noncomputable def scoreRows (st : KnowledgeStore) (query_embedding : List ℚ) :
    List SearchRow :=
  (joinRows st).map fun p =>
    ⟨p.1.id, p.1.content, p.1.source, p.1.chunk_type, p.1.metadata,
      cosineSim query_embedding p.2.embedding⟩

/-- `KnowledgeStore.search`: score every joined row with the cosine
similarity to the query, sort by descending similarity, take `k`. -/
noncomputable def search (st : KnowledgeStore) (query_embedding : List ℚ)
    (k : ℕ) : List SearchRow :=
  (sortDesc (scoreRows st query_embedding)).take k

/-- `KnowledgeStore.clear`: `DELETE FROM` both tables. -/
def clear (_st : KnowledgeStore) : KnowledgeStore := ⟨[], []⟩

/-- Well-formedness of a reachable store state: document ids are unique, and
the `embeddings` table carries exactly one row per document, in insertion
order (`document_id` column equal to the `documents` id column). -/
def WF (st : KnowledgeStore) : Prop :=
  (st.documents.map DocumentRow.id).Nodup ∧
  st.embeddings.map EmbeddingRow.document_id = st.documents.map DocumentRow.id

instance (st : KnowledgeStore) : Decidable (WF st) := by
  unfold WF; exact inferInstance

end KnowledgeStore

/-! ## The rule-based evaluator of `src/chatbot.py` -/

namespace Chatbot

/-- The keys of the `time_strategies` dictionary. -/
inductive TimeOfDay where
  | morning
  | afterLunch
  | lateAfternoon
deriving DecidableEq

/-- The keys of the `style_strategies` dictionary. -/
inductive LearningStyle where
  | visual
  | auditory
  | kinesthetic
deriving DecidableEq

/-- The keys of the `behavior_strategies` dictionary. -/
inductive BehaviorType where
  | attention
  | frustration
deriving DecidableEq

/-- The keys of the `subject_approaches` dictionary. -/
inductive SubjectKind where
  | math
  | reading
deriving DecidableEq

def timeOfDayStr : TimeOfDay → String
  | .morning => "morning"
  | .afterLunch => "after lunch"
  | .lateAfternoon => "late afternoon"

def learningStyleStr : LearningStyle → String
  | .visual => "visual"
  | .auditory => "auditory"
  | .kinesthetic => "kinesthetic"

def subjectStr : SubjectKind → String
  | .math => "math"
  | .reading => "reading"

def timeStrategies : TimeOfDay → List String
  | .morning => ["morning routine", "clear expectations", "structured start"]
  | .afterLunch => ["movement break", "active learning", "energy release"]
  | .lateAfternoon => ["short tasks", "varied activities", "brain breaks"]

def timeExplanationStr : TimeOfDay → String
  | .morning =>
    "Morning is ideal for setting clear expectations and structured activities when students are fresh."
  | .afterLunch =>
    "After lunch, students need movement and engaging activities to maintain focus."
  | .lateAfternoon =>
    "Late afternoon requires shorter, varied tasks due to decreased attention spans."

def styleStrategies : LearningStyle → List String
  | .visual => ["look at", "watch", "see", "show", "draw"]
  | .auditory => ["listen", "hear", "tell", "say", "sound"]
  | .kinesthetic => ["try", "move", "touch", "build", "practice"]

def styleExplanationStr : LearningStyle → String
  | .visual =>
    "Visual learners need to see concepts represented through diagrams, demonstrations, or written instructions."
  | .auditory =>
    "Auditory learners benefit from verbal instructions, discussions, and sound-based learning."
  | .kinesthetic =>
    "Kinesthetic learners need hands-on activities and physical movement to engage with learning."

def behaviorStrategies : BehaviorType → List String
  | .attention => ["let's focus", "watch carefully", "look at this"]
  | .frustration => ["you can do this", "let's try together", "take your time"]

def behaviorExplanationStr (b : BehaviorType) (trigger : String) : String :=
  match b with
  | .attention =>
    "Students with attention challenges need clear, direct prompts to maintain focus."
  | .frustration =>
    "When frustrated due to " ++ trigger ++
      ", students need encouragement and support to rebuild confidence."

def subjectStrategies : SubjectKind → List String
  | .math => ["break down", "step by step", "use manipulatives", "draw it out"]
  | .reading => ["sound it out", "look for clues", "picture walk", "sight words"]

def subjectExplanationStr : SubjectKind → String
  | .math =>
    "Mathematical concepts need concrete representations and step-by-step guidance."
  | .reading =>
    "Reading skills develop through phonics, comprehension strategies, and visual supports."

/-- The scenario fields read by `evaluate_response` (a well-formed scenario
dictionary; a missing or foreign key would be a `KeyError`, which the typed
embedding excludes by construction). -/
structure Scenario where
  time_of_day : TimeOfDay
  learning_style : LearningStyle
  behavior_type : BehaviorType
  behavior_trigger : String
  subject : SubjectKind
deriving DecidableEq

/-- Python's `str.lower()` (ASCII case folding). -/
def lowerStr (s : String) : String := ⟨s.data.map Char.toLower⟩

/-- Whether `p` occurs as a contiguous run inside `s`. -/
def infixCheck (p : List Char) : List Char → Bool
  | [] => p.isEmpty
  | s@(_ :: t) => p.isPrefixOf s || infixCheck p t

/-- Python's `phrase in resp.lower()`. -/
def containsPhrase (resp phrase : String) : Bool :=
  infixCheck phrase.data (lowerStr resp).data

/-- `any(strategy in teacher_response.lower() for strategy in phrases)`. -/
def matchesAny (resp : String) (phrases : List String) : Bool :=
  phrases.any (containsPhrase resp)

/-- The state of the module-level `random` generator, as the stream of draws
`random.choice` will make (each draw is the index picked, modulo the length
of the choice list). -/
abbrev RandTape := List ℕ

/-- `random.choice(l)` on the ambient generator: consumes one draw. -/
def randChoice (g : RandTape) (l : List String) : String × RandTape :=
  match g with
  | n :: g2 => (l.getD (n % l.length) "", g2)
  | [] => (l.getD 0 "", [])

/-- Templates of `_generate_positive_reaction`. -/
def positiveReactions : List String :=
  ["*sits up straighter* Oh, I think I get it now!",
   "*nods enthusiastically* Can I try the next one?",
   "*smiles* That makes it easier to understand!",
   "*looks more confident* I want to try it myself!",
   "*focuses on the work* This isn't as hard as I thought!"]

/-- Templates of `_generate_neutral_reaction`. -/
def neutralReactions : List String :=
  ["*listens carefully* Okay, I'll try...",
   "*thinks about it* Maybe... can you show me again?",
   "*nods slowly* I think I'm starting to understand...",
   "*looks uncertain* Should I try it this way?",
   "*pays more attention* Can you explain that part again?"]

/-- Templates of `_generate_negative_reaction`. -/
def negativeReactions : List String :=
  ["*still looks confused* I don't understand...",
   "*slumps in chair* This is too hard...",
   "*seems discouraged* Everyone else gets it except me...",
   "*fidgets more* Can we do something else?",
   "*avoids eye contact* I'm not good at this..."]

/-- The dictionary returned by `evaluate_response` (the printed
`overall_explanation` string, which only formats the same data, is not
modelled). -/
structure EvalResult where
  score : ℚ
  context_time : ℚ
  context_style : ℚ
  context_behavior : ℚ
  context_subject : ℚ
  identified_strategies : List (String × ℚ × String)
  feedback : List String
  suggestions : List String
  explanations : List String
  student_reaction : String
  engagement_delta : ℚ
  understanding_delta : ℚ
  mood_delta : ℚ
deriving DecidableEq

/-- `TeacherTrainingChatbot.evaluate_response`.  The four weighted keyword
categories run in source order; `random.choice` draws from the ambient
generator tape only in the miss branches (and once more for the student
reaction), exactly where the source calls it. -/
def evaluate_response (resp : String) (sc : Scenario) (g : RandTape) :
    EvalResult × RandTape :=
  let tList := timeStrategies sc.time_of_day
  let tMatch := matchesAny resp tList
  let score1 : ℚ := if tMatch then 0.2 else 0
  let fb1 : List String :=
    if tMatch then
      ["✓ Good use of " ++ timeOfDayStr sc.time_of_day ++ " appropriate strategy"]
    else []
  let pick1 := randChoice g tList
  let g1 := if tMatch then g else pick1.2
  let sg1 : List String :=
    if tMatch then []
    else ["Consider " ++ timeOfDayStr sc.time_of_day ++ " strategies like: " ++ pick1.1]
  let ex1 : List String := if tMatch then [] else [timeExplanationStr sc.time_of_day]
  let sList := styleStrategies sc.learning_style
  let sMatch := matchesAny resp sList
  let score2 := score1 + (if sMatch then 0.2 else 0)
  let fb2 := fb1 ++
    (if sMatch then
      ["✓ Response matches " ++ learningStyleStr sc.learning_style ++ " learning style"]
     else [])
  let sg2 := sg1 ++
    (if sMatch then []
     else ["Include " ++ learningStyleStr sc.learning_style ++
        " learning approaches like: " ++ String.intercalate ", " (sList.take 2)])
  let ex2 := ex1 ++ (if sMatch then [] else [styleExplanationStr sc.learning_style])
  let bList := behaviorStrategies sc.behavior_type
  let bMatch := matchesAny resp bList
  let score3 := score2 + (if bMatch then 0.3 else 0)
  let fb3 := fb2 ++ (if bMatch then ["✓ Appropriate behavioral support"] else [])
  let pick3 := randChoice g1 bList
  let g3 := if bMatch then g1 else pick3.2
  let sg3 := sg2 ++
    (if bMatch then [] else ["Try phrases like: '" ++ pick3.1 ++ "'"])
  let ex3 := ex2 ++
    (if bMatch then []
     else [behaviorExplanationStr sc.behavior_type sc.behavior_trigger])
  let jList := subjectStrategies sc.subject
  let jMatch := matchesAny resp jList
  let score := score3 + (if jMatch then 0.3 else 0)
  let fb := fb3 ++
    (if jMatch then ["✓ Good " ++ subjectStr sc.subject ++ "-specific support"] else [])
  let pick4 := randChoice g3 jList
  let g4 := if jMatch then g3 else pick4.2
  let sg := sg3 ++
    (if jMatch then []
     else ["Include " ++ subjectStr sc.subject ++ " strategies like: " ++ pick4.1])
  let ex := ex3 ++ (if jMatch then [] else [subjectExplanationStr sc.subject])
  let rList :=
    if 0.8 ≤ score then positiveReactions
    else if 0.4 ≤ score then neutralReactions
    else negativeReactions
  let pick5 := randChoice g4 rList
  (⟨score,
    min (score + 0.2) 1, min (score + 0.2) 1,
    min (score + 0.3) 1, min (score + 0.3) 1,
    [("time_management", score, ex.getD 0 ""),
     ("learning_style", score, ex.getD 1 ""),
     ("behavioral", score, ex.getD 2 "")],
    fb, sg, ex, pick5.1, score / 2, score / 2, score / 2⟩, pick5.2)

end Chatbot

/-! ## The semantic scoring helpers of `src/knowledge_manager.py` -/

namespace KnowledgeManager

/-- A retrieved chunk as handed to the scoring helpers by
`KnowledgeManager.search` (`text` plus the retrieval `relevance`). -/
structure SearchHit where
  text : String
  relevance : ℝ

/-- `faiss.pairwise_distances` on two single vectors: the squared Euclidean
distance. -/
def sqDist : List ℚ → List ℚ → ℚ
  | a :: as, b :: bs => (a - b) * (a - b) + sqDist as bs
  | _, _ => 0

/-- `KnowledgeManager._calculate_strategy_score`; `embed` is the external
sentence-transformer model (`embed(text) -> vector`). -/
noncomputable def calculate_strategy_score (embed : String → List ℚ)
    (response : String) (strategies : List SearchHit) : ℝ :=
  let score : ℝ := strategies.foldl
    (fun acc s => acc + (sqDist (embed response) (embed s.text) : ℚ) * s.relevance) 0
  min 1 (if strategies.isEmpty then 0 else score / strategies.length)

/-- `KnowledgeManager._calculate_intervention_score` (same computation over
the intervention hits). -/
noncomputable def calculate_intervention_score (embed : String → List ℚ)
    (response : String) (interventions : List SearchHit) : ℝ :=
  let score : ℝ := interventions.foldl
    (fun acc s => acc + (sqDist (embed response) (embed s.text) : ℚ) * s.relevance) 0
  min 1 (if interventions.isEmpty then 0 else score / interventions.length)

end KnowledgeManager

/-! ## The structured-data flatteners -/

/-- Parsed JSON/YAML values, as an explicit tagged variant; the scalar leaves
are strings and integers. -/
inductive JVal where
  | str (s : String)
  | int (n : ℤ)
  | arr (items : List JVal)
  | obj (fields : List (String × JVal))

mutual

/-- `KnowledgeProcessor._flatten_dict`: mappings extend the dotted prefix,
sequence elements are flattened under the unchanged prefix, any non-container
value is rendered as one `"prefix: value"` line. -/
def flatten_dict : JVal → String → List String
  | .str s, pfx => [pfx ++ ": " ++ s]
  | .int n, pfx => [pfx ++ ": " ++ toString n]
  | .arr items, pfx => flatten_list items pfx
  | .obj fields, pfx => flatten_fields fields pfx

def flatten_list : List JVal → String → List String
  | [], _ => []
  | v :: vs, pfx => flatten_dict v pfx ++ flatten_list vs pfx

def flatten_fields : List (String × JVal) → String → List String
  | [], _ => []
  | (k, v) :: fs, pfx =>
    flatten_dict v (if pfx = "" then k else pfx ++ "." ++ k) ++ flatten_fields fs pfx

end

/-- A chunk draft produced by `KnowledgeManager._process_structured_data`
(its constant `source`/`type` metadata entries are omitted). -/
structure StructChunk where
  content : String
  path : String
deriving DecidableEq

mutual

/-- `KnowledgeManager._process_structured_data`: mapping leaves render as
`"key: value"` (final key only) with the dotted path recorded in metadata,
sequence elements record an indexed path; a top-level scalar matches neither
`isinstance` branch and yields nothing. -/
def process_structured_data : JVal → String → List StructChunk
  | .obj fields, path => psdFields fields path
  | .arr items, path => psdItems items path 0
  | .str _, _ => []
  | .int _, _ => []

def psdFields : List (String × JVal) → String → List StructChunk
  | [], _ => []
  | (k, v) :: fs, path =>
    let current := if path = "" then k else path ++ "." ++ k
    (match v with
     | .str s => [⟨k ++ ": " ++ s, current⟩]
     | .int n => [⟨k ++ ": " ++ toString n, current⟩]
     | _ => process_structured_data v current) ++ psdFields fs path

def psdItems : List JVal → String → ℕ → List StructChunk
  | [], _, _ => []
  | v :: vs, path, i =>
    let current := path ++ "[" ++ toString i ++ "]"
    (match v with
     | .str s => [⟨s, current⟩]
     | .int n => [⟨toString n, current⟩]
     | _ => process_structured_data v current) ++ psdItems vs path (i + 1)

end

mutual

/-- Number of scalar leaves of a value. -/
def leafCount : JVal → ℕ
  | .str _ => 1
  | .int _ => 1
  | .arr items => leafCountList items
  | .obj fields => leafCountFields fields

def leafCountList : List JVal → ℕ
  | [] => 0
  | v :: vs => leafCount v + leafCountList vs

def leafCountFields : List (String × JVal) → ℕ
  | [] => 0
  | (_, v) :: fs => leafCount v + leafCountFields fs

end

mutual

/-- Modelled from the spec's flattening contract, for comparison with the
source flatteners: "for a mapping, each scalar leaf becomes `dotted.path:
value`; for a sequence, each element is flattened under an indexed path;
nested containers recurse". -/
def flattenSpecified : JVal → String → List String
  | .str s, pfx => [pfx ++ ": " ++ s]
  | .int n, pfx => [pfx ++ ": " ++ toString n]
  | .arr items, pfx => flattenSpecifiedItems items pfx 0
  | .obj fields, pfx => flattenSpecifiedFields fields pfx

def flattenSpecifiedItems : List JVal → String → ℕ → List String
  | [], _, _ => []
  | v :: vs, pfx, i =>
    flattenSpecified v (pfx ++ "[" ++ toString i ++ "]") ++
      flattenSpecifiedItems vs pfx (i + 1)

def flattenSpecifiedFields : List (String × JVal) → String → List String
  | [], _ => []
  | (k, v) :: fs, pfx =>
    flattenSpecified v (if pfx = "" then k else pfx ++ "." ++ k) ++
      flattenSpecifiedFields fs pfx

end

/-! ## Store lemmas -/

namespace KnowledgeStore

theorem mem_le_foldr_max (i : ℕ) : ∀ ids : List ℕ, i ∈ ids → i ≤ ids.foldr max 0
  | n :: ns, h => by
    rcases List.mem_cons.mp h with h | h
    · simp [h, Nat.le_max_left n (ns.foldr max 0)]
    · exact le_trans (mem_le_foldr_max i ns h) (Nat.le_max_right n _)

theorem mem_lt_nextRowId {i : ℕ} {ids : List ℕ} (h : i ∈ ids) : i < nextRowId ids :=
  Nat.lt_succ_of_le (mem_le_foldr_max i ids h)

theorem flatMap_join_congr (e : EmbeddingRow) (es : List EmbeddingRow) :
    ∀ ds : List DocumentRow, (∀ d ∈ ds, e.document_id ≠ d.id) →
    (ds.flatMap fun d =>
        (((e :: es).filter fun x => x.document_id == d.id).map fun x => (d, x))) =
      (ds.flatMap fun d =>
        ((es.filter fun x => x.document_id == d.id).map fun x => (d, x)))
  | [], _ => rfl
  | d :: ds, h => by
    have hne : (e.document_id == d.id) = false :=
      beq_false_of_ne (h d (List.mem_cons_self d ds))
    have hhead : (e :: es).filter (fun x => x.document_id == d.id) =
        es.filter (fun x => x.document_id == d.id) := by
      simp [List.filter_cons, hne]
    simp only [List.flatMap_cons, hhead]
    rw [flatMap_join_congr e es ds fun x hx => h x (List.mem_cons_of_mem d hx)]

theorem join_eq_zip :
    ∀ (docs : List DocumentRow) (embs : List EmbeddingRow),
    (docs.map DocumentRow.id).Nodup →
    embs.map EmbeddingRow.document_id = docs.map DocumentRow.id →
    (docs.flatMap fun d =>
        ((embs.filter fun e => e.document_id == d.id).map fun e => (d, e))) =
      docs.zip embs
  | [], [], _, _ => rfl
  | [], _ :: _, _, h => by simp at h
  | _ :: _, [], _, h => by simp at h
  | d :: ds, e :: es, hn, h => by
    simp only [List.map_cons, List.cons.injEq] at h
    obtain ⟨hde, hes⟩ := h
    simp only [List.map_cons, List.nodup_cons] at hn
    obtain ⟨hid, hn'⟩ := hn
    have hfilter : es.filter (fun x => x.document_id == d.id) = [] := by
      rw [List.filter_eq_nil_iff]
      intro x hx
      have : x.document_id ∈ ds.map DocumentRow.id := hes ▸ List.mem_map_of_mem _ hx
      simp only [beq_iff_eq]
      intro hc
      exact hid (hc ▸ this)
    have hrest : ∀ d' ∈ ds, e.document_id ≠ d'.id := by
      intro d' hd' hc
      exact hid (hde ▸ hc ▸ List.mem_map_of_mem DocumentRow.id hd')
    have hhead : (e :: es).filter (fun x => x.document_id == d.id) = [e] := by
      simp [List.filter_cons, hde, hfilter]
    simp only [List.flatMap_cons, hhead, List.map_cons, List.map_nil,
      List.zip_cons_cons]
    rw [flatMap_join_congr e es ds hrest, join_eq_zip ds es hn' hes]
    rfl

theorem joinRows_eq_zip {st : KnowledgeStore} (h : WF st) :
    joinRows st = st.documents.zip st.embeddings :=
  join_eq_zip st.documents st.embeddings h.1 h.2

theorem WF_length {st : KnowledgeStore} (h : WF st) :
    st.embeddings.length = st.documents.length := by
  have := congrArg List.length h.2
  simpa using this

theorem WF_add {st : KnowledgeStore} (h : WF st) (c s t : String) (m : Metadata)
    (e : List ℚ) : WF (add_document st c s t m e) := by
  obtain ⟨hn, he⟩ := h
  constructor
  · simp only [add_document, insertDocumentRow, insertEmbeddingRow, List.map_append,
      List.map_cons, List.map_nil]
    rw [List.nodup_append]
    refine ⟨hn, List.nodup_singleton _, ?_⟩
    intro i hi
    simp only [List.mem_singleton]
    intro hc
    exact absurd (mem_lt_nextRowId (hc ▸ hi)) (lt_irrefl _)
  · simp [add_document, insertDocumentRow, insertEmbeddingRow, he]

theorem perm_orderedInsertDesc (a : SearchRow) :
    ∀ l : List SearchRow, (orderedInsertDesc a l).Perm (a :: l)
  | [] => List.Perm.refl _
  | b :: l => by
    rw [orderedInsertDesc]
    split
    · exact List.Perm.refl _
    · exact ((perm_orderedInsertDesc a l).cons b).trans (List.Perm.swap a b l)

theorem perm_sortDesc : ∀ l : List SearchRow, (sortDesc l).Perm l
  | [] => List.Perm.refl _
  | b :: l => by
    rw [sortDesc]
    exact (perm_orderedInsertDesc b (sortDesc l)).trans ((perm_sortDesc l).cons b)

theorem mem_orderedInsertDesc {x a : SearchRow} {l : List SearchRow} :
    x ∈ orderedInsertDesc a l ↔ x = a ∨ x ∈ l := by
  rw [(perm_orderedInsertDesc a l).mem_iff, List.mem_cons]

theorem rankLe_trans {a b c : SearchRow} (h1 : rankLe a b) (h2 : rankLe b c) :
    rankLe a c := le_trans h2 h1

theorem pairwise_orderedInsertDesc {a : SearchRow} {l : List SearchRow}
    (h : l.Pairwise rankLe) : (orderedInsertDesc a l).Pairwise rankLe := by
  induction l with
  | nil => simp [orderedInsertDesc]
  | cons b l ih =>
    rw [orderedInsertDesc]
    rcases List.pairwise_cons.mp h with ⟨hb, hl⟩
    split
    · rename_i hab
      refine List.pairwise_cons.mpr ⟨?_, h⟩
      intro y hy
      rcases List.mem_cons.mp hy with rfl | hy
      · exact hab
      · exact rankLe_trans hab (hb y hy)
    · rename_i hab
      have hba : rankLe b a := le_of_lt (lt_of_not_le hab)
      refine List.pairwise_cons.mpr ⟨?_, ih hl⟩
      intro y hy
      rcases mem_orderedInsertDesc.mp hy with rfl | hy
      · exact hba
      · exact hb y hy

theorem pairwise_sortDesc : ∀ l : List SearchRow, (sortDesc l).Pairwise rankLe
  | [] => List.Pairwise.nil
  | b :: l => by
    rw [sortDesc]
    exact pairwise_orderedInsertDesc (pairwise_sortDesc l)

/-- The ranking order actually produced: strictly greater similarity, or
equal similarity and strictly smaller chunk id. -/
def rankLt (a b : SearchRow) : Prop :=
  b.similarity < a.similarity ∨ (a.similarity = b.similarity ∧ a.id < b.id)

theorem rankLt_trans {a b c : SearchRow} (h1 : rankLt a b) (h2 : rankLt b c) :
    rankLt a c := by
  rcases h1 with h1 | ⟨h1, h1'⟩ <;> rcases h2 with h2 | ⟨h2, h2'⟩
  · exact Or.inl (lt_trans h2 h1)
  · exact Or.inl (h2 ▸ h1)
  · exact Or.inl (h1 ▸ h2)
  · exact Or.inr ⟨h1.trans h2, lt_trans h1' h2'⟩

theorem pairwise_rankLt_orderedInsertDesc {a : SearchRow} {l : List SearchRow}
    (h : l.Pairwise rankLt) (hid : ∀ y ∈ l, a.id < y.id) :
    (orderedInsertDesc a l).Pairwise rankLt := by
  induction l with
  | nil => simp [orderedInsertDesc]
  | cons b l ih =>
    rw [orderedInsertDesc]
    rcases List.pairwise_cons.mp h with ⟨hb, hl⟩
    split
    · rename_i hab
      refine List.pairwise_cons.mpr ⟨?_, h⟩
      intro y hy
      have hay : rankLt a b := by
        rcases lt_or_eq_of_le hab with hlt | heq
        · exact Or.inl hlt
        · exact Or.inr ⟨heq.symm, hid b (List.mem_cons_self b l)⟩
      rcases List.mem_cons.mp hy with rfl | hy
      · exact hay
      · exact rankLt_trans hay (hb y hy)
    · rename_i hab
      have hba : rankLt b a := Or.inl (lt_of_not_le hab)
      refine List.pairwise_cons.mpr ⟨?_, ?_⟩
      · intro y hy
        rcases mem_orderedInsertDesc.mp hy with rfl | hy
        · exact hba
        · exact hb y hy
      · exact ih hl fun y hy => hid y (List.mem_cons_of_mem b hy)

theorem pairwise_rankLt_sortDesc {l : List SearchRow}
    (h : l.Pairwise fun x y => x.id < y.id) : (sortDesc l).Pairwise rankLt := by
  induction l with
  | nil => exact List.Pairwise.nil
  | cons b l ih =>
    rw [sortDesc]
    rcases List.pairwise_cons.mp h with ⟨hb, hl⟩
    exact pairwise_rankLt_orderedInsertDesc (ih hl)
      fun y hy => hb y ((perm_sortDesc l).mem_iff.mp hy)

theorem get_all_add {st : KnowledgeStore} (h : WF st) (c s t : String)
    (m : Metadata) (e : List ℚ) :
    get_all_documents (add_document st c s t m e) =
      get_all_documents st ++
        [⟨nextRowId (st.documents.map DocumentRow.id), c, s, t, m, e⟩] := by
  have h' := WF_add h c s t m e
  unfold get_all_documents
  rw [joinRows_eq_zip h, joinRows_eq_zip h']
  show (((st.documents ++ [_]).zip (st.embeddings ++ [_])).map _) = _
  rw [List.zip_append (WF_length h).symm]
  simp

theorem get_by_source_add (st : KnowledgeStore) (c s t : String)
    (m : Metadata) (e : List ℚ) :
    get_documents_by_source (add_document st c s t m e) s =
      get_documents_by_source st s ++
        [⟨nextRowId (st.documents.map DocumentRow.id), c, t, m⟩] := by
  unfold get_documents_by_source
  show (((st.documents ++ [_]).filter _).map _) = _
  rw [List.filter_append]
  simp

theorem sumSqQ_cons (x : ℚ) (xs : List ℚ) :
    sumSqQ (x :: xs) = x * x + sumSqQ xs := by
  simp [sumSqQ]

theorem sumSqQ_nonneg : ∀ v : List ℚ, 0 ≤ sumSqQ v
  | [] => le_refl 0
  | x :: xs => by
    rw [sumSqQ_cons]
    exact add_nonneg (mul_self_nonneg x) (sumSqQ_nonneg xs)

theorem dotQ_sq_le : ∀ q d : List ℚ, (dotQ q d) ^ 2 ≤ sumSqQ q * sumSqQ d
  | [], d => by
    show (0 : ℚ) ^ 2 ≤ sumSqQ [] * sumSqQ d
    simp [sumSqQ]
  | _ :: _, [] => by
    show (0 : ℚ) ^ 2 ≤ _ * sumSqQ []
    simp [sumSqQ]
  | a :: as, b :: bs => by
    have ih := dotQ_sq_le as bs
    have hA := sumSqQ_nonneg as
    have hB := sumSqQ_nonneg bs
    show (a * b + dotQ as bs) ^ 2 ≤ _
    rw [sumSqQ_cons, sumSqQ_cons]
    have h1 : (2 * a * b * dotQ as bs) ^ 2 ≤
        (a * a * sumSqQ bs + b * b * sumSqQ as) ^ 2 := by
      nlinarith [ih, sq_nonneg (a * a * sumSqQ bs - b * b * sumSqQ as),
        sq_nonneg (a * b), mul_nonneg hA hB]
    have hr : 0 ≤ a * a * sumSqQ bs + b * b * sumSqQ as :=
      add_nonneg (mul_nonneg (mul_self_nonneg a) hB)
        (mul_nonneg (mul_self_nonneg b) hA)
    have h2 : 2 * a * b * dotQ as bs ≤ a * a * sumSqQ bs + b * b * sumSqQ as :=
      (abs_le_of_sq_le_sq' h1 hr).2
    nlinarith [ih, h2]

theorem cosineSim_bounds {q d : List ℚ} (hq : sumSqQ q ≠ 0) (hd : sumSqQ d ≠ 0) :
    -1 ≤ cosineSim q d ∧ cosineSim q d ≤ 1 := by
  have hqpos : (0 : ℝ) < ((sumSqQ q : ℚ) : ℝ) := by
    exact_mod_cast lt_of_le_of_ne (sumSqQ_nonneg q) (Ne.symm hq)
  have hdpos : (0 : ℝ) < ((sumSqQ d : ℚ) : ℝ) := by
    exact_mod_cast lt_of_le_of_ne (sumSqQ_nonneg d) (Ne.symm hd)
  have hden : 0 < normR q * normR d :=
    mul_pos (Real.sqrt_pos.mpr hqpos) (Real.sqrt_pos.mpr hdpos)
  have habs : |((dotQ q d : ℚ) : ℝ)| ≤ normR q * normR d := by
    have hsq : (((dotQ q d : ℚ) : ℝ)) ^ 2 ≤
        ((sumSqQ q : ℚ) : ℝ) * ((sumSqQ d : ℚ) : ℝ) := by
      exact_mod_cast dotQ_sq_le q d
    have hmul : normR q * normR d =
        Real.sqrt (((sumSqQ q : ℚ) : ℝ) * ((sumSqQ d : ℚ) : ℝ)) :=
      (Real.sqrt_mul (le_of_lt hqpos) _).symm
    rw [← Real.sqrt_sq_eq_abs, hmul]
    exact Real.sqrt_le_sqrt hsq
  have h1 : |cosineSim q d| ≤ 1 := by
    rw [cosineSim, abs_div, abs_of_pos hden]
    exact (div_le_one hden).mpr habs
  exact abs_le.mp h1

theorem mem_search_embedding {st : KnowledgeStore} {q : List ℚ} {k : ℕ}
    {r : SearchRow} (hr : r ∈ search st q k) :
    ∃ e ∈ st.embeddings, r.similarity = cosineSim q e.embedding := by
  unfold search at hr
  have hr2 := (perm_sortDesc (scoreRows st q)).mem_iff.mp (List.mem_of_mem_take hr)
  rcases List.mem_map.mp hr2 with ⟨p, hp, rfl⟩
  rcases List.mem_flatMap.mp hp with ⟨d, _, hmem⟩
  rcases List.mem_map.mp hmem with ⟨e, he, hpe⟩
  exact ⟨e, (List.mem_filter.mp he).1, by rw [← hpe]⟩

theorem pairwise_zip_left {R : DocumentRow → DocumentRow → Prop} :
    ∀ (ds : List DocumentRow) (es : List EmbeddingRow), ds.Pairwise R →
      (ds.zip es).Pairwise fun p q => R p.1 q.1
  | [], _, _ => by simp
  | _ :: _, [], _ => by simp
  | d :: ds, e :: es, h => by
    rcases List.pairwise_cons.mp h with ⟨hd, h'⟩
    rw [List.zip_cons_cons]
    refine List.pairwise_cons.mpr ⟨?_, pairwise_zip_left ds es h'⟩
    intro p hp
    exact hd p.1 (List.of_mem_zip hp).1

theorem scoreRows_ids {st : KnowledgeStore} (h : WF st) (q : List ℚ) :
    (scoreRows st q).map SearchRow.id = st.documents.map DocumentRow.id := by
  unfold scoreRows
  rw [joinRows_eq_zip h, List.map_map]
  have : (SearchRow.id ∘ fun p : DocumentRow × EmbeddingRow =>
      (⟨p.1.id, p.1.content, p.1.source, p.1.chunk_type, p.1.metadata,
        cosineSim q p.2.embedding⟩ : SearchRow)) =
      DocumentRow.id ∘ Prod.fst := rfl
  rw [this, ← List.map_map, List.map_fst_zip _ _ (WF_length h).ge]

theorem scoreRows_length {st : KnowledgeStore} (h : WF st) (q : List ℚ) :
    (scoreRows st q).length = st.documents.length := by
  have := congrArg List.length (scoreRows_ids h q)
  simpa using this

/-- A sample populated store used to instantiate hypotheses at concrete
inputs. -/
def sampleStore : KnowledgeStore :=
  add_document (add_document emptyStore "first chunk" "src.txt" "text"
    [("page", "1")] [1, 0]) "second chunk" "src.txt" "text" [("page", "2")] [0, 1]

/-- C1: a chunk row and its embedding row are persisted as one atomic unit:
a successful `add_document` leaves both rows (and the joined `get_all` row),
and when the embedding `INSERT` fails the rolled-back transaction leaves the
document row unretrievable through `get_all_documents`, `search`, or
`get_documents_by_source`. -/
theorem add_atomic (st : KnowledgeStore) (c s t : String) (m : Metadata)
    (e : List ℚ) (h : WF st) :
    (get_all_documents (add_document_injected false st c s t m e) =
      get_all_documents st ++
        [⟨nextRowId (st.documents.map DocumentRow.id), c, s, t, m, e⟩]) ∧
    ((⟨nextRowId (st.documents.map DocumentRow.id), c, s, t, m⟩ : DocumentRow) ∈
      (add_document_injected false st c s t m e).documents) ∧
    (∃ er ∈ (add_document_injected false st c s t m e).embeddings,
      er.document_id = nextRowId (st.documents.map DocumentRow.id) ∧
        er.embedding = e) ∧
    (get_all_documents (add_document_injected true st c s t m e) =
      get_all_documents st) ∧
    (∀ qe k, search (add_document_injected true st c s t m e) qe k =
      search st qe k) ∧
    (get_documents_by_source (add_document_injected true st c s t m e) s =
      get_documents_by_source st s) := by
  refine ⟨get_all_add h c s t m e, ?_, ?_, rfl, fun _ _ => rfl, rfl⟩
  · show _ ∈ (add_document st c s t m e).documents
    simp [add_document, insertDocumentRow, insertEmbeddingRow]
  · refine ⟨⟨nextRowId (st.embeddings.map EmbeddingRow.id),
      nextRowId (st.documents.map DocumentRow.id), e⟩, ?_, rfl, rfl⟩
    show _ ∈ (add_document st c s t m e).embeddings
    simp [add_document, insertDocumentRow, insertEmbeddingRow]

/-- Witness for C1 at a concrete store. -/
theorem add_atomic_witness :
    WF sampleStore ∧
    (get_all_documents (add_document_injected true sampleStore "x" "s" "t" [] [3]) =
      get_all_documents sampleStore) :=
  ⟨by decide, (add_atomic sampleStore "x" "s" "t" [] [3] (by decide)).2.2.2.1⟩

/-- C2: for every stored corpus, query and `k`, `search` returns exactly
`min k corpus_size` results, sorted by non-increasing similarity, with no
duplicate chunk ids; `k` at least the corpus size returns (a ranking of) the
whole corpus, and the empty corpus returns the empty sequence. -/
theorem search_bounds (st : KnowledgeStore) (q : List ℚ) (k : ℕ) (h : WF st) :
    (search st q k).length = min k st.documents.length ∧
    (search st q k).Pairwise rankLe ∧
    ((search st q k).map SearchRow.id).Nodup ∧
    (st.documents.length ≤ k →
      ((search st q k).map SearchRow.id).Perm
        (st.documents.map DocumentRow.id)) := by
  have hperm : (sortDesc (scoreRows st q)).Perm (scoreRows st q) :=
    perm_sortDesc (scoreRows st q)
  have hlen : (sortDesc (scoreRows st q)).length = st.documents.length := by
    rw [hperm.length_eq, scoreRows_length h q]
  refine ⟨?_, ?_, ?_, ?_⟩
  · rw [search, List.length_take, hlen]
  · exact (pairwise_sortDesc (scoreRows st q)).sublist
      (List.take_sublist k (sortDesc (scoreRows st q)))
  · have hnodup : ((sortDesc (scoreRows st q)).map SearchRow.id).Nodup := by
      have := (hperm.map SearchRow.id)
      rw [scoreRows_ids h q] at this
      exact h.1.perm this.symm
    exact hnodup.sublist ((List.take_sublist k _).map SearchRow.id)
  · intro hk
    rw [search, List.take_of_length_le (hlen.symm ▸ hk)]
    have := hperm.map SearchRow.id
    rw [scoreRows_ids h q] at this
    exact this

/-- Witness for C2 at a concrete store. -/
theorem search_bounds_witness :
    WF sampleStore ∧
    (search sampleStore [1, 1] 1).length = min 1 sampleStore.documents.length :=
  ⟨by decide, (search_bounds sampleStore [1, 1] 1 (by decide)).1⟩

/-- C3: the ranking is descending similarity with ties broken by ascending
chunk id: when the corpus rows arrive in ascending id order (the SQLite rowid
scan order), any two returned rows are ordered by strictly greater similarity
or by equal similarity and strictly smaller id, so the ranking is a
deterministic function of corpus and query. -/
theorem search_tiebreak (st : KnowledgeStore) (q : List ℚ) (k : ℕ) (h : WF st)
    (hasc : st.documents.Pairwise fun a b => a.id < b.id) :
    (search st q k).Pairwise rankLt := by
  refine ((pairwise_rankLt_sortDesc ?_).sublist (List.take_sublist k _))
  unfold scoreRows
  rw [joinRows_eq_zip h, List.pairwise_map]
  exact pairwise_zip_left st.documents st.embeddings hasc

/-- Witness for C3 at a concrete store. -/
theorem search_tiebreak_witness :
    (WF sampleStore ∧
      sampleStore.documents.Pairwise (fun a b => a.id < b.id)) ∧
    (search sampleStore [1, 1] 2).Pairwise rankLt :=
  ⟨⟨by decide, by decide⟩,
    search_tiebreak sampleStore [1, 1] 2 (by decide) (by decide)⟩

/-- C9 (amended): within a clear-free lifetime the id assigned by an insert
is strictly greater than every id in the table (so ids are strictly
increasing and never reused while rows persist); a `clear` resets the table,
after which rowids restart. -/
theorem add_id_fresh (st : KnowledgeStore) (c s t : String) (m : Metadata)
    (e : List ℚ) (hn : (st.documents.map DocumentRow.id).Nodup) :
    (∀ d ∈ st.documents, d.id < nextRowId (st.documents.map DocumentRow.id)) ∧
    ((add_document st c s t m e).documents.map DocumentRow.id =
      st.documents.map DocumentRow.id ++
        [nextRowId (st.documents.map DocumentRow.id)]) ∧
    ((add_document st c s t m e).documents.map DocumentRow.id).Nodup := by
  refine ⟨fun d hd => mem_lt_nextRowId (List.mem_map_of_mem DocumentRow.id hd),
    ?_, ?_⟩
  · simp [add_document, insertDocumentRow, insertEmbeddingRow]
  · simp only [add_document, insertDocumentRow, insertEmbeddingRow,
      List.map_append, List.map_cons, List.map_nil]
    rw [List.nodup_append]
    refine ⟨hn, List.nodup_singleton _, ?_⟩
    intro i hi
    simp only [List.mem_singleton]
    intro hc
    exact absurd (mem_lt_nextRowId (hc ▸ hi)) (lt_irrefl _)

/-- Witness for C9's amended theorem at a concrete store. -/
theorem add_id_fresh_witness :
    (sampleStore.documents.map DocumentRow.id).Nodup ∧
    ((add_document sampleStore "x" "s" "t" [] [3]).documents.map
      DocumentRow.id).Nodup :=
  ⟨by decide, (add_id_fresh sampleStore "x" "s" "t" [] [3] (by decide)).2.2⟩

/-- C9 (counterexample): ids ARE reused across a `clear`.  The first insert
into a fresh store receives rowid 1; after `clear` empties the tables, the
next insert receives rowid 1 again (`INTEGER PRIMARY KEY` without
`AUTOINCREMENT` restarts at `max(rowid)+1 = 1`). -/
theorem id_reused_after_clear :
    (add_document emptyStore "A" "s" "t" [] [1]).documents.map DocumentRow.id
      = [1] ∧
    (add_document (clear (add_document emptyStore "A" "s" "t" [] [1]))
      "B" "s" "t" [] [1]).documents.map DocumentRow.id = [1] := by
  constructor <;> decide

/-- C10: the unguarded division in `search` is well-defined with every
similarity in `[-1, 1]` under the precondition that the query and all stored
embeddings have nonzero norm; for the zero query vector the denominator of
the division vanishes against every stored embedding (the division error
branch is reachable). -/
theorem search_similarity_bounds (st : KnowledgeStore) (q : List ℚ) (k : ℕ)
    (hq : sumSqQ q ≠ 0) (hd : ∀ e ∈ st.embeddings, sumSqQ e.embedding ≠ 0) :
    (∀ r ∈ search st q k, -1 ≤ r.similarity ∧ r.similarity ≤ 1) ∧
    (∀ d : List ℚ, normR [0, 0] * normR d = 0) := by
  constructor
  · intro r hr
    rcases mem_search_embedding hr with ⟨e, he, hsim⟩
    rw [hsim]
    exact cosineSim_bounds hq (hd e he)
  · intro d
    have h0 : sumSqQ [0, 0] = 0 := by norm_num [sumSqQ]
    simp [normR, h0]

/-- Witness for C10 at a concrete store and query. -/
theorem search_similarity_bounds_witness :
    (sumSqQ [1, 1] ≠ 0 ∧
      ∀ e ∈ sampleStore.embeddings, sumSqQ e.embedding ≠ 0) ∧
    (∀ d : List ℚ, normR [0, 0] * normR d = 0) := by
  have h1 : sumSqQ [1, 1] ≠ 0 := by norm_num [sumSqQ]
  have h2 : ∀ e ∈ sampleStore.embeddings, sumSqQ e.embedding ≠ 0 := by
    intro e he
    rcases List.mem_pair.mp (by exact_mod_cast he) with rfl | rfl <;>
      norm_num [sumSqQ]
  exact ⟨⟨h1, h2⟩, (search_similarity_bounds sampleStore [1, 1] 1 h1 h2).2⟩

/-- C5 (amended): a chunk added via `add_document` is returned byte-identical
by `get_all_documents` (content, source, chunk_type, metadata, and the stored
embedding exactly equal to the added vector, hence within any tolerance), and
by `get_documents_by_source` for its source (content, chunk_type, metadata;
that projection returns no source or embedding column). -/
theorem add_roundtrip (st : KnowledgeStore) (c s t : String) (m : Metadata)
    (e : List ℚ) (h : WF st) :
    get_all_documents (add_document st c s t m e) =
      get_all_documents st ++
        [⟨nextRowId (st.documents.map DocumentRow.id), c, s, t, m, e⟩] ∧
    get_documents_by_source (add_document st c s t m e) s =
      get_documents_by_source st s ++
        [⟨nextRowId (st.documents.map DocumentRow.id), c, t, m⟩] :=
  ⟨get_all_add h c s t m e, get_by_source_add st c s t m e⟩

/-- Witness for C5's amended theorem at a concrete store. -/
theorem add_roundtrip_witness :
    WF sampleStore ∧
    get_documents_by_source (add_document sampleStore "third" "s2" "t" [] [3])
        "s2" =
      get_documents_by_source sampleStore "s2" ++ [⟨3, "third", "t", []⟩] :=
  ⟨by decide, by
    have h := (add_roundtrip sampleStore "third" "s2" "t" [] [3] (by decide)).2
    rwa [show nextRowId (sampleStore.documents.map DocumentRow.id) = 3
      by decide] at h⟩

/-- C5 (counterexample): `get_documents_by_source` does not return the stored
embedding (nor a source column): two stores whose only difference is the
added embedding (`[0]` versus `[5]`, farther apart than any tolerance
`1/1000000`) produce identical `get_documents_by_source` output, while
`get_all_documents` distinguishes them. -/
theorem get_by_source_omits_embedding :
    get_documents_by_source (add_document emptyStore "c" "s" "t" [] [0]) "s" =
      get_documents_by_source (add_document emptyStore "c" "s" "t" [] [5]) "s" ∧
    get_all_documents (add_document emptyStore "c" "s" "t" [] [0]) ≠
      get_all_documents (add_document emptyStore "c" "s" "t" [] [5]) ∧
    ¬((5 : ℚ) - 0 < 1 / 1000000) := by
  refine ⟨by decide, by decide, by norm_num⟩

end KnowledgeStore

namespace KnowledgeManager

theorem foldl_score_eq_sum (f : SearchHit → ℝ) :
    ∀ (l : List SearchHit) (a : ℝ),
      l.foldl (fun acc s => acc + f s) a = a + (l.map f).sum
  | [], a => by simp
  | x :: xs, a => by
    rw [List.foldl_cons, foldl_score_eq_sum f xs (a + f x)]
    simp [add_assoc]

/-- C6 (amended): both scoring helpers return
`min 1 ((Σ_i d(resp, chunk_i) * relevance_i) / n)` (and `0` on no chunks),
where `d` is the faiss pairwise distance (squared Euclidean) between the two
embeddings — not cosine similarity; the cap at `1.0` holds, and the two
helpers compute identical values. -/
theorem score_formula (embed : String → List ℚ) (resp : String)
    (hits : List SearchHit) :
    calculate_strategy_score embed resp hits =
      min 1 (if hits.isEmpty then 0 else
        ((hits.map fun h =>
          ((sqDist (embed resp) (embed h.text) : ℚ) : ℝ) * h.relevance).sum /
            hits.length)) ∧
    calculate_strategy_score embed resp hits ≤ 1 ∧
    calculate_intervention_score embed resp hits =
      calculate_strategy_score embed resp hits := by
  refine ⟨?_, ?_, rfl⟩
  · unfold calculate_strategy_score
    rw [foldl_score_eq_sum]
    simp
  · unfold calculate_strategy_score
    exact min_le_left _ _

/-- C6 (counterexample): the per-chunk "similarity" used by the scoring
helpers is the faiss pairwise (squared Euclidean) distance, not cosine
similarity: for the embeddings `[2,0]` and `[-2,0]` the code uses the value
`16`, which is outside `[-1,1]`, while their cosine similarity is `-1`; with
a single retrieved chunk of relevance `1`, the code's score (`1`, the capped
distance average) differs from the capped cosine-weighted average (`-1`). -/
theorem similarity_not_cosine :
    sqDist [2, 0] [-2, 0] = 16 ∧
    ¬(sqDist [2, 0] [-2, 0] ≤ 1) ∧
    cosineSim [2, 0] [-2, 0] = -1 ∧
    calculate_strategy_score
      (fun t => if t = "resp" then [2, 0] else [-2, 0]) "resp"
      [⟨"chunk", 1⟩] = 1 ∧
    min (1 : ℝ) (cosineSim [2, 0] [-2, 0] * 1 / 1) = -1 ∧
    (1 : ℝ) ≠ -1 := by
  have hsq : sqDist [2, 0] [-2, 0] = 16 := by norm_num [sqDist]
  have hcos : cosineSim [2, 0] [-2, 0] = -1 := by
    have h4 : ((sumSqQ [2, 0] : ℚ) : ℝ) = 4 := by norm_num [sumSqQ]
    have h4' : ((sumSqQ [-2, 0] : ℚ) : ℝ) = 4 := by norm_num [sumSqQ]
    have hs : Real.sqrt 4 = 2 := by
      rw [show (4 : ℝ) = 2 ^ 2 by norm_num, Real.sqrt_sq (by norm_num)]
    unfold cosineSim normR
    rw [h4, h4', hs]
    norm_num [dotQ]
  refine ⟨hsq, by rw [hsq]; norm_num, hcos, ?_, by rw [hcos]; norm_num, by norm_num⟩
  unfold calculate_strategy_score
  norm_num [sqDist]

end KnowledgeManager

namespace Chatbot

/-- C4: the evaluator's score is exactly the sum of the weights of the
matched categories (time 0.2, learning style 0.2, behavior 0.3, subject
0.3), hence between 0 and 1, and each of the three returned state deltas
equals `score / 2`. -/
theorem evaluate_score_spec (resp : String) (sc : Scenario) (g : RandTape) :
    (evaluate_response resp sc g).1.score =
      (if matchesAny resp (timeStrategies sc.time_of_day) then (0.2 : ℚ) else 0) +
      (if matchesAny resp (styleStrategies sc.learning_style) then (0.2 : ℚ) else 0) +
      (if matchesAny resp (behaviorStrategies sc.behavior_type) then (0.3 : ℚ) else 0) +
      (if matchesAny resp (subjectStrategies sc.subject) then (0.3 : ℚ) else 0) ∧
    0 ≤ (evaluate_response resp sc g).1.score ∧
    (evaluate_response resp sc g).1.score ≤ 1 ∧
    (evaluate_response resp sc g).1.engagement_delta =
      (evaluate_response resp sc g).1.score / 2 ∧
    (evaluate_response resp sc g).1.understanding_delta =
      (evaluate_response resp sc g).1.score / 2 ∧
    (evaluate_response resp sc g).1.mood_delta =
      (evaluate_response resp sc g).1.score / 2 := by
  unfold evaluate_response
  cases hT : matchesAny resp (timeStrategies sc.time_of_day) <;>
  cases hS : matchesAny resp (styleStrategies sc.learning_style) <;>
  cases hB : matchesAny resp (behaviorStrategies sc.behavior_type) <;>
  cases hJ : matchesAny resp (subjectStrategies sc.subject) <;>
    simp [hT, hS, hB, hJ] <;> norm_num

theorem randChoice_fst_mem {l : List String} (hl : l ≠ []) (g : RandTape) :
    (randChoice g l).1 ∈ l := by
  have hlen : 0 < l.length := List.length_pos.mpr hl
  have hmem : ∀ i, i < l.length → l.getD i "" ∈ l := by
    intro i hi
    rw [List.getD_eq_getElem l "" hi]
    exact List.getElem_mem hi
  cases g with
  | nil => exact hmem 0 hlen
  | cons n g2 => exact hmem (n % l.length) (Nat.mod_lt n hlen)

/-- The suggestion strings the evaluator can append: each names a strategy
drawn from the missed category's own list (the learning-style suggestion
deterministically joins that list's first two entries). -/
def suggestionFromLists (sc : Scenario) (s : String) : Prop :=
  (∃ p ∈ timeStrategies sc.time_of_day,
    s = "Consider " ++ timeOfDayStr sc.time_of_day ++ " strategies like: " ++ p) ∨
  (s = "Include " ++ learningStyleStr sc.learning_style ++
    " learning approaches like: " ++
    String.intercalate ", " ((styleStrategies sc.learning_style).take 2)) ∨
  (∃ p ∈ behaviorStrategies sc.behavior_type,
    s = "Try phrases like: '" ++ p ++ "'") ∨
  (∃ p ∈ subjectStrategies sc.subject,
    s = "Include " ++ subjectStr sc.subject ++ " strategies like: " ++ p)

theorem timeStrategies_ne_nil (t : TimeOfDay) : timeStrategies t ≠ [] := by
  cases t <;> decide

theorem behaviorStrategies_ne_nil (b : BehaviorType) :
    behaviorStrategies b ≠ [] := by
  cases b <;> decide

theorem subjectStrategies_ne_nil (j : SubjectKind) :
    subjectStrategies j ≠ [] := by
  cases j <;> decide

theorem mem_ite_nil_singleton {c : Prop} [Decidable c] {x s : String}
    (h : s ∈ (if c then ([] : List String) else [x])) : s = x := by
  split at h
  · simp at h
  · simpa using h

/-- C7 (amended): every suggestion appended for a missed category names a
strategy from that category's list, the random ones selected by the ambient
module-level `random` generator (modelled as the tape `g`), not by any
injectable seeded source; the learning-style suggestion is deterministic. -/
theorem suggestions_from_category_lists (resp : String) (sc : Scenario)
    (g : RandTape) :
    ∀ s ∈ (evaluate_response resp sc g).1.suggestions,
      suggestionFromLists sc s := by
  intro s hs
  simp only [evaluate_response, List.mem_append] at hs
  rcases hs with ((h | h) | h) | h
  · exact Or.inl ⟨_, randChoice_fst_mem (timeStrategies_ne_nil _) _,
      mem_ite_nil_singleton h⟩
  · exact Or.inr (Or.inl (mem_ite_nil_singleton h))
  · exact Or.inr (Or.inr (Or.inl
      ⟨_, randChoice_fst_mem (behaviorStrategies_ne_nil _) _,
        mem_ite_nil_singleton h⟩))
  · exact Or.inr (Or.inr (Or.inr
      ⟨_, randChoice_fst_mem (subjectStrategies_ne_nil _) _,
        mem_ite_nil_singleton h⟩))

/-- A concrete scenario (morning, visual, attention, math). -/
def scenarioA : Scenario :=
  ⟨.morning, .visual, .attention, "difficult worksheet", .math⟩

/-- Witness for C7's amended theorem at a concrete run. -/
theorem suggestions_from_category_lists_witness :
    ("Consider morning strategies like: morning routine" ∈
      (evaluate_response "zzz" scenarioA [0, 0, 0, 0]).1.suggestions) ∧
    suggestionFromLists scenarioA
      "Consider morning strategies like: morning routine" :=
  ⟨by decide, suggestions_from_category_lists "zzz" scenarioA [0, 0, 0, 0] _
    (by decide)⟩

/-- C7 (counterexample): the suggestions are NOT a function of response,
scenario and an injectable seed — `evaluate_response` takes no random source
or seed, and two runs with identical response and scenario but different
ambient global-generator states return different suggestion lists. -/
theorem suggestions_depend_on_global_state :
    (evaluate_response "zzz" scenarioA [0, 0, 0, 0]).1.suggestions ≠
      (evaluate_response "zzz" scenarioA [1, 1, 1, 1]).1.suggestions := by
  decide

end Chatbot

mutual

theorem flatten_dict_length : ∀ (v : JVal) (pfx : String),
    (flatten_dict v pfx).length = leafCount v
  | .str s, pfx => by simp [flatten_dict, leafCount]
  | .int n, pfx => by simp [flatten_dict, leafCount]
  | .arr items, pfx => by
    simp only [flatten_dict, leafCount]
    exact flatten_list_length items pfx
  | .obj fields, pfx => by
    simp only [flatten_dict, leafCount]
    exact flatten_fields_length fields pfx

theorem flatten_list_length : ∀ (items : List JVal) (pfx : String),
    (flatten_list items pfx).length = leafCountList items
  | [], _ => rfl
  | v :: vs, pfx => by
    simp only [flatten_list, leafCountList, List.length_append]
    rw [flatten_dict_length v pfx, flatten_list_length vs pfx]

theorem flatten_fields_length : ∀ (fs : List (String × JVal)) (pfx : String),
    (flatten_fields fs pfx).length = leafCountFields fs
  | [], _ => rfl
  | (k, v) :: fs, pfx => by
    simp only [flatten_fields, leafCountFields, List.length_append]
    rw [flatten_dict_length, flatten_fields_length fs pfx]

end

/-- The scalar leaves reachable by `_process_structured_data`, which only
descends into containers (a top-level scalar yields nothing). -/
def containerLeaves : JVal → ℕ
  | .obj fs => leafCountFields fs
  | .arr items => leafCountList items
  | _ => 0

mutual

theorem psd_length : ∀ (v : JVal) (path : String),
    (process_structured_data v path).length = containerLeaves v
  | .str _, _ => rfl
  | .int _, _ => rfl
  | .arr items, path => by
    simp only [process_structured_data, containerLeaves]
    exact psdItems_length items path 0
  | .obj fields, path => by
    simp only [process_structured_data, containerLeaves]
    exact psdFields_length fields path

theorem psdFields_length : ∀ (fs : List (String × JVal)) (path : String),
    (psdFields fs path).length = leafCountFields fs
  | [], _ => rfl
  | (k, v) :: fs, path => by
    simp only [psdFields, List.length_append]
    rw [psdFields_length fs path]
    congr 1
    cases v with
    | str s => rfl
    | int n => rfl
    | arr items =>
      simpa [containerLeaves, leafCount] using
        psd_length (.arr items) (if path = "" then k else path ++ "." ++ k)
    | obj fields =>
      simpa [containerLeaves, leafCount] using
        psd_length (.obj fields) (if path = "" then k else path ++ "." ++ k)

theorem psdItems_length : ∀ (items : List JVal) (path : String) (i : ℕ),
    (psdItems items path i).length = leafCountList items
  | [], _, _ => rfl
  | v :: vs, path, i => by
    simp only [psdItems, List.length_append]
    rw [psdItems_length vs path (i + 1)]
    congr 1
    cases v with
    | str s => rfl
    | int n => rfl
    | arr items =>
      simpa [containerLeaves, leafCount] using
        psd_length (.arr items) (path ++ "[" ++ toString i ++ "]")
    | obj fields =>
      simpa [containerLeaves, leafCount] using
        psd_length (.obj fields) (path ++ "[" ++ toString i ++ "]")

end

/-- C8 (amended): both flatteners emit exactly one chunk per scalar leaf,
none dropped, none extra — `_flatten_dict` for every value, and
`_process_structured_data` for every mapping- or sequence-rooted value (its
entry point only descends into containers). -/
theorem flatten_one_chunk_per_leaf :
    (∀ (v : JVal) (pfx : String), (flatten_dict v pfx).length = leafCount v) ∧
    (∀ (fields : List (String × JVal)) (path : String),
      (process_structured_data (.obj fields) path).length =
        leafCount (.obj fields)) ∧
    (∀ (items : List JVal) (path : String),
      (process_structured_data (.arr items) path).length =
        leafCount (.arr items)) :=
  ⟨flatten_dict_length,
    fun fields path => psd_length (.obj fields) path,
    fun items path => psd_length (.arr items) path⟩

/-- C8 (counterexample): the renderings diverge from the spec's
"`dotted.path: value`, sequences under an indexed path" contract:
`_flatten_dict` flattens sequence elements under the unchanged parent path
(no index), and `_process_structured_data` renders a mapping leaf with only
its final key, not the dotted path. -/
theorem flatten_not_spec_render :
    flatten_dict (.obj [("a", .arr [.int 1, .int 2])]) "" = ["a: 1", "a: 2"] ∧
    flattenSpecified (.obj [("a", .arr [.int 1, .int 2])]) "" =
      ["a[0]: 1", "a[1]: 2"] ∧
    flatten_dict (.obj [("a", .arr [.int 1, .int 2])]) "" ≠
      flattenSpecified (.obj [("a", .arr [.int 1, .int 2])]) "" ∧
    (process_structured_data (.obj [("a", .obj [("b", .int 1)])]) "").map
      StructChunk.content = ["b: 1"] ∧
    "b: 1" ≠ "a.b: 1" := by
  refine ⟨by decide, by decide, by decide, by decide, by decide⟩
